import Mathlib

/-!
Shallow embedding of the SS2B_Backend proctoring API
(src/proctor-api/proctorapi/api.py and models.py).

Datetimes are modelled as natural numbers (seconds since an arbitrary
epoch); `Option Nat` models a nullable DATETIME column.  A `duration`
column (MySQL TIME) keeps its hour/minute/second components, since the
listing endpoint uses only the hour and minute parts
(`timedelta(hours=duration.hour, minutes=duration.minute)`).

Each endpoint is embedded as a pure function over the explicitly passed
parts of the database state; `db.session.commit()` is modelled by
returning the updated rows (an endpoint that never commits returns its
input rows unchanged).  HTTP status codes are plain naturals.
Credential hashing, token encoding and the vision subsystems are
outside the modelled core (spec section 1 lists them as external).
-/

namespace SS2B

/-- MySQL TIME value, as stored in `Exam.duration` (models.py line 103). -/
structure Duration where
  hour : Nat
  minute : Nat
  second : Nat
deriving Repr, DecidableEq

/-- `User` row (models.py lines 26-46); credential hash and audit
timestamps are external concerns and omitted. -/
structure User where
  user_id : Nat
  first_name : String
  last_name : String
  is_examiner : Nat
deriving Repr, DecidableEq

/-- `UserRoles` row (models.py lines 88-92). -/
structure UserRole where
  user_id : Nat
  role_id : Nat
deriving Repr, DecidableEq

/-- `Exam` row (models.py lines 94-115). -/
structure Exam where
  exam_id : Nat
  exam_name : String
  subject_id : Nat
  login_code : String
  start_date : Nat
  end_date : Nat
  duration : Duration
  document_link : Option String
deriving Repr, DecidableEq

/-- `ExamRecording` row (models.py lines 129-146): `time_started` and
`time_ended` are nullable DATETIME columns. -/
structure ExamRecording where
  exam_recording_id : Nat
  exam_id : Nat
  user_id : Nat
  time_started : Option Nat
  time_ended : Option Nat
  video_link : Option String
deriving Repr, DecidableEq

/-- `ExamWarning` row (models.py lines 158-169); the autoincrement
primary key is assigned by the store and not needed here. -/
structure ExamWarning where
  exam_recording_id : Nat
  warning_time : Nat
  description : String
deriving Repr, DecidableEq

/-! ### Pagination (api.py `get_request_args` lines 745-748 and
`filter_results` lines 826-833) -/

/-- The pagination tail of `get_request_args` (api.py lines 745-748).
`none` models an absent or unparseable query parameter
(`request.args.get(..., type=int)` falls back to the default).
The source only clamps values below 1 up to 1; there is no upper bound. -/
def get_request_args_page (page_number results_length : Option Int) :
    Int × Int :=
  let p := page_number.getD 1
  let l := results_length.getD 25
  (if p < 1 then 1 else p, if l < 1 then 1 else l)

/-- The pagination tail of `filter_results` (api.py lines 826-833):
slice `results[offset : offset + results_length + 1]`, set
`next_page_exists` iff the peek-ahead row was returned, and drop it
(`del results[-1]`) if so.  `results` stands for the already
filtered-and-ordered result set. -/
def filter_results_paginate (results : List α)
    (page_number results_length : Nat) : List α × Bool :=
  let offset := (page_number - 1) * results_length
  let sliced := (results.drop offset).take (results_length + 1)
  let next_page_exists := sliced.length == results_length + 1
  (if next_page_exists then sliced.dropLast else sliced, next_page_exists)

/-! ### Recording lifecycle (api.py `create_exam_recording` lines 263-307,
`get_exam_recording` lines 309-367, `update_exam_recording` lines 369-412) -/

/-- Result of the recording-creation endpoint: either the created row
(HTTP 201) or a 401 message. -/
inductive CreateRecResult
  | created (rec : ExamRecording)
  | err401 (msg : String)
deriving Repr, DecidableEq

/-- `create_exam_recording` (api.py lines 274-297) after authentication,
`pre_init_check` and the duplicate-recording branch: the claim's setting
is a registered user with no prior recording for `(exam_id, user_id)`,
so `existing_recording` is `None` and the override branch is skipped.
`exam?` is `Exam.query.get(data['exam_id'])`; `newId` is the
autoincrement primary key the store assigns on commit.  On success the
constructed row gets `time_started = now` and keeps
`time_ended = parse_datetime(None) = None`. -/
def create_exam_recording (exam? : Option Exam)
    (d_exam_id d_user_id : Nat) (newId : Nat) (now : Nat) :
    CreateRecResult :=
  match exam? with
  | none => .err401 "The exam does not exist."
  | some exam =>
    if exam.end_date ≤ now then
      .err401 "The exam has already ended. Contact an administrator to override."
    else if exam.start_date ≥ now then
      .err401 "The exam has not started. Contact an administrator to override."
    else
      .created { exam_recording_id := newId, exam_id := d_exam_id,
                 user_id := d_user_id, time_started := some now,
                 time_ended := none, video_link := none }

/-- `er.time_started + timedelta(hours=duration.hour, minutes=duration.minute)`
(api.py line 339): the seconds component of the exam duration is not used. -/
def latestFinish (time_started : Nat) (duration : Duration) : Nat :=
  time_started + duration.hour * 3600 + duration.minute * 60

/-- One row of the join executed by `get_exam_recording` (api.py lines
322-326): the recording with its user, its exam, and the aggregated
warning count. -/
structure RecordingRow where
  user : User
  exam : Exam
  recording : ExamRecording
  warningCount : Nat
deriving Repr, DecidableEq

/-- One element of the `exam_recordings` response list built by
`get_exam_recording` (api.py lines 346-360). -/
structure ListingItem where
  exam_recording_id : Nat
  user_id : Nat
  first_name : String
  last_name : String
  exam_id : Nat
  exam_name : String
  login_code : String
  duration : Duration
  subject_id : Nat
  time_started : Option Nat
  time_ended : Option Nat
  video_link : Option String
  warning_count : Nat
deriving Repr, DecidableEq

/-- The dict appended to `exam_recordings` for a row, with `er` the
(possibly just lazily expired) recording object at append time. -/
def mkItem (row : RecordingRow) (er : ExamRecording) : ListingItem :=
  { exam_recording_id := er.exam_recording_id,
    user_id := row.user.user_id,
    first_name := row.user.first_name,
    last_name := row.user.last_name,
    exam_id := row.exam.exam_id,
    exam_name := row.exam.exam_name,
    login_code := row.exam.login_code,
    duration := row.exam.duration,
    subject_id := row.exam.subject_id,
    time_started := er.time_started,
    time_ended := er.time_ended,
    video_link := er.video_link,
    warning_count := row.warningCount }

/-- The loop body of `get_exam_recording` (api.py lines 333-360) for one
row: lazy expiry when `time_ended` is null and the latest possible
finish time has passed, then the `not (updated and in_progress)` guard
deciding whether the row is reported.  Returns the recording state that
`db.session.commit()` will persist together with the optional response
item.  When `time_ended` is null but `time_started` is also null the
source raises a `TypeError` (`None + timedelta`), caught as a 500:
modelled as `Except.error`. -/
def processRecordingRow (now : Nat) (in_progress : Option Bool)
    (row : RecordingRow) :
    Except Unit (ExamRecording × Option ListingItem) :=
  let er := row.recording
  match er.time_ended with
  | some _ => .ok (er, some (mkItem row er))
  | none =>
    match er.time_started with
    | none => .error ()
    | some ts =>
      let lf := latestFinish ts row.exam.duration
      if lf ≤ now then
        let er' := { er with time_ended := some lf }
        if in_progress = some true then .ok (er', none)
        else .ok (er', some (mkItem row er'))
      else .ok (er, some (mkItem row er))

/-- `get_exam_recording` (api.py lines 330-363) from the fetched join
rows onward: fold the loop body over the rows, collecting the committed
recording states and the `exam_recordings` response list in order. -/
def get_exam_recording (now : Nat) (in_progress : Option Bool) :
    List RecordingRow →
    Except Unit (List ExamRecording × List ListingItem)
  | [] => .ok ([], [])
  | row :: rows =>
    match processRecordingRow now in_progress row with
    | .error e => .error e
    | .ok (er, item?) =>
      match get_exam_recording now in_progress rows with
      | .error e => .error e
      | .ok (ers, items) =>
        .ok (er :: ers,
             match item? with
             | some item => item :: items
             | none => items)

/-- The condition under which the loop of `get_exam_recording` lazily
expires a row (api.py lines 337-343). -/
def wouldExpire (now : Nat) (row : RecordingRow) : Bool :=
  row.recording.time_ended == none &&
    (match row.recording.time_started with
     | some ts => latestFinish ts row.exam.duration ≤ now
     | none => false)

/-- `update_exam_recording` (api.py lines 383-404) after authentication,
the `exam_recording_id` / `action` presence guard and the recording
lookup: the `end` and `update_link` actions on the found recording.
`Except.error` carries the 400 message; the recording is not mutated on
any error path. -/
def update_exam_recording (rec : ExamRecording) (action : String)
    (video_link : Option String) (now : Nat) :
    Except String ExamRecording :=
  if action = "end" then
    match rec.time_ended with
    | some _ => .error "Exam recording has already ended"
    | none => .ok { rec with time_ended := some now }
  else if action = "update_link" then
    match video_link with
    | none => .error "No video_link included in payload"
    | some l =>
      if l = "" then .error "No video_link included in payload"
      else .ok { rec with video_link := some l }
  else .error "Include parameter action: end, update_link"

/-! ### Warning escalation (api.py `create_exam_warning` lines 437-471) -/

/-- `MAX_WARNING_COUNT` (api.py line 32). -/
def MAX_WARNING_COUNT : Nat := 3

/-- The part of the database state touched by `create_exam_warning`. -/
structure Store where
  recordings : List ExamRecording
  warnings : List ExamWarning
deriving Repr, DecidableEq

/-- Payload of a warning-creation request after `pre_init_check`
(required fields `exam_recording_id`, `warning_time`, `description`). -/
structure WarningData where
  exam_recording_id : Nat
  warning_time : Nat
  description : String
deriving Repr, DecidableEq

/-- `create_exam_warning` (api.py lines 448-461) after authentication:
count the warnings already stored for `exam_recording_id`, insert the
new warning, and if the prior count equals `MAX_WARNING_COUNT - 1`
fetch the recording and set `time_ended = now` when still null.  The
response carries `warning_count = prior count + 1`.  If the escalation
branch runs and the recording does not exist, `exam_recording.time_ended`
raises `AttributeError` (500, nothing committed): modelled as
`Except.error`. -/
def create_exam_warning (st : Store) (d : WarningData) (now : Nat) :
    Except Unit (Store × Nat) :=
  let prev_count :=
    (st.warnings.filter
      (fun w => w.exam_recording_id == d.exam_recording_id)).length
  let new_warnings := st.warnings ++
    [{ exam_recording_id := d.exam_recording_id,
       warning_time := d.warning_time, description := d.description }]
  if prev_count = MAX_WARNING_COUNT - 1 then
    match st.recordings.find?
        (fun r => r.exam_recording_id == d.exam_recording_id) with
    | none => .error ()
    | some found =>
      if found.time_ended = none then
        .ok ({ recordings := st.recordings.map fun r =>
                 if r.exam_recording_id == d.exam_recording_id then
                   { r with time_ended := some now }
                 else r,
               warnings := new_warnings }, prev_count + 1)
      else .ok ({ recordings := st.recordings, warnings := new_warnings },
                prev_count + 1)
  else .ok ({ recordings := st.recordings, warnings := new_warnings },
            prev_count + 1)

/-! ### Exam create / update (api.py `create_exam` lines 98-136 and
`update_exam` lines 180-234) -/

/-- Payload of an exam-creation request after `pre_init_check` and
login-code generation (the generated unique code is a parameter, its
random generation being external). -/
structure ExamData where
  exam_name : String
  subject_id : Nat
  login_code : String
  start_date : Nat
  end_date : Nat
  duration : Duration
  document_link : Option String
deriving Repr, DecidableEq

/-- `create_exam` (api.py lines 121-126) for an authenticated examiner:
construct the exam, raise when `start_date > end_date` — a plain
`Exception` caught by the catch-all handler at line 134, hence HTTP 500,
with nothing added to the session — otherwise add, commit and return
201.  The pair is (exam rows after the request, HTTP status). -/
def create_exam (exams : List Exam) (d : ExamData) (newId : Nat) :
    List Exam × Nat :=
  let exam : Exam :=
    { exam_id := newId, exam_name := d.exam_name,
      subject_id := d.subject_id, login_code := d.login_code,
      start_date := d.start_date, end_date := d.end_date,
      duration := d.duration, document_link := d.document_link }
  if exam.start_date > exam.end_date then (exams, 500)
  else (exams ++ [exam], 201)

/-- Payload of an exam-update request; `none` models both an absent key
and a Python-falsy value (`data.get(k)` guards each field, so `0` and
`""` behave like absence and are folded into `none` here, except where
falsiness is modelled explicitly). -/
structure ExamUpdateData where
  exam_id : Option Nat
  exam_name : Option String
  subject_id : Option Nat
  start_date : Option Nat
  end_date : Option Nat
  duration : Option Duration
  document_link : Option String
deriving Repr, DecidableEq

/-- The `end_date`, `duration` and `document_link` updates of
`update_exam` followed by the final date-order check (api.py lines
210-221), applied after the name / subject / start-date updates. -/
def finishExamUpdates (exam : Exam) (d : ExamUpdateData) (now : Nat) :
    Except String Exam :=
  let step : Except String Exam :=
    match d.end_date with
    | some ed =>
      if ed < now then .error "Exam end_date has passed"
      else .ok { exam with end_date := ed }
    | none => .ok exam
  match step with
  | .error e => .error e
  | .ok exam =>
    let exam :=
      match d.duration with
      | some du => { exam with duration := du }
      | none => exam
    let exam :=
      match d.document_link with
      | some l => if l = "" then exam else { exam with document_link := some l }
      | none => exam
    if exam.start_date > exam.end_date then
      .error "Exam end_date precedes Exam start_date."
    else .ok exam

/-- The field-update block of `update_exam` (api.py lines 201-221),
run only when the exam has not started: apply each supplied field,
raising (400) when a supplied `start_date` or `end_date` has already
passed or when the updated exam has `start_date > end_date`. -/
def applyExamUpdates (exam : Exam) (d : ExamUpdateData) (now : Nat) :
    Except String Exam :=
  let exam :=
    match d.exam_name with
    | some n => if n = "" then exam else { exam with exam_name := n }
    | none => exam
  let exam :=
    match d.subject_id with
    | some s => if s = 0 then exam else { exam with subject_id := s }
    | none => exam
  match d.start_date with
  | some sd =>
    if sd < now then .error "Exam start_date has passed"
    else finishExamUpdates { exam with start_date := sd } d now
  | none => finishExamUpdates exam d now

/-- `update_exam` (api.py lines 186-234) for an authenticated examiner:
look the exam up, refuse when it has already started, otherwise apply
the field updates and return the updated exam in the 200 response.  The
`db.session.commit()` on line 223 is commented out in the source, so the
stored rows are returned unchanged on every path: the mutation lives
only in the request's session and is discarded.  The pair is
(exam rows after the request, response). -/
def update_exam (exams : List Exam) (d : ExamUpdateData) (now : Nat) :
    List Exam × Except String Exam :=
  match d.exam_id with
  | none => (exams, .error "No exam_id included in payload")
  | some eid =>
    if eid = 0 then (exams, .error "No exam_id included in payload")
    else
      match exams.find? (fun e => e.exam_id == eid) with
      | none => (exams, .error "Exam not found")
      | some exam =>
        if now < exam.start_date then
          (exams, applyExamUpdates exam d now)
        else
          (exams, .error "Cannot update an Exam that has already started.")

/-! ### Access guard (models.py `User.decode_auth_token` lines 62-73,
api.py `is_examiner` / `is_user` / `authenticate_token` / `is_self`
lines 835-859) -/

/-- The value `authenticate_token` hands to the role predicates: either
the integer `sub` claim of a decodable token, or the fixed error string
`decode_auth_token` returns when `jwt.decode` raises. -/
inductive AuthId
  | uid (id : Nat)
  | errMsg (s : String)
deriving Repr, DecidableEq

/-- `User.decode_auth_token` (models.py lines 62-73): `decoded` is the
`sub` payload when `jwt.decode` succeeds, `none` when it raises; on
failure the fixed string is returned in place of a user id. -/
def decode_auth_token (decoded : Option Nat) : AuthId :=
  match decoded with
  | some sub => .uid sub
  | none => .errMsg "Invalid token. Please log in again."

/-- SQL equality of an integer `user_id` column against the Python value
held in `user_id`: a string (the decode-failure message) never equals an
integer column value. -/
def authIdMatchesUser (a : AuthId) (uid : Nat) : Bool :=
  match a with
  | .uid i => i == uid
  | .errMsg _ => false

/-- `is_examiner` (api.py lines 835-837):
`UserRoles.query.filter_by(user_id=user_id).value('role_id') == 1`,
where `.value` yields the first matching row's `role_id` or `None`,
and `None == 1` is `False`. -/
def is_examiner (roles : List UserRole) (a : AuthId) : Bool :=
  match roles.find? (fun r => authIdMatchesUser a r.user_id) with
  | some r => r.role_id == 1
  | none => false

/-- `is_user` (api.py lines 839-841). -/
def is_user (users : List User) (a : AuthId) : Bool :=
  (users.find? (fun u => authIdMatchesUser a u.user_id)).isSome

/-- `is_self` (api.py lines 854-859):
`user_id == query_user_id and user_id is not None`, with
`query_user_id` the int-typed `user_id` request arg. -/
def is_self (a : AuthId) (query_user_id : Option Nat) : Bool :=
  match a, query_user_id with
  | .uid i, some q => i == q
  | _, _ => false

/-- The access-control gate of `create_exam` (api.py lines 106-128):
an examiner reaches the exam-creation body, anyone else gets 403. -/
def create_exam_route (roles : List UserRole) (a : AuthId)
    (exams : List Exam) (d : ExamData) (newId : Nat) :
    List Exam × Nat :=
  if is_examiner roles a then create_exam exams d newId
  else (exams, 403)

/-! ### Concrete sample data used in counterexamples and witnesses -/

/-- Sample exam whose window is the half-open-looking interval
`[100, 200)` of the claim; used at the boundary `now = 100`. -/
def examC5 : Exam :=
  { exam_id := 1, exam_name := "Algebra", subject_id := 7,
    login_code := "AB12CD34EF56", start_date := 100, end_date := 200,
    duration := { hour := 2, minute := 30, second := 0 },
    document_link := none }

/-- Sample join row for the listing endpoint: recording started at 0,
never ended, exam duration 1h 0m 30s. -/
def rowC1 : RecordingRow :=
  { user := { user_id := 2, first_name := "Ada", last_name := "Byron",
              is_examiner := 0 },
    exam := { exam_id := 1, exam_name := "Logic", subject_id := 3,
              login_code := "ZX98YW76VU54", start_date := 0,
              end_date := 100000,
              duration := { hour := 1, minute := 0, second := 30 },
              document_link := none },
    recording := { exam_recording_id := 5, exam_id := 1, user_id := 2,
                   time_started := some 0, time_ended := none,
                   video_link := none },
    warningCount := 0 }

/-- Sample recording for the warning-escalation examples: in progress
(`time_ended` null). -/
def recC2 : ExamRecording :=
  { exam_recording_id := 9, exam_id := 1, user_id := 2,
    time_started := some 50, time_ended := none, video_link := none }

/-- Sample store for the warning-escalation witness: one in-progress
recording that already has two warnings. -/
def storeC2 : Store :=
  { recordings := [recC2],
    warnings := [{ exam_recording_id := 9, warning_time := 60,
                   description := "phone" },
                 { exam_recording_id := 9, warning_time := 70,
                   description := "second person" }] }

/-- Sample warning payload targeting `recC2`. -/
def warnC2 : WarningData :=
  { exam_recording_id := 9, warning_time := 80, description := "left seat" }

/-- Sample already-ended recording for the write-once witness. -/
def recC4 : ExamRecording :=
  { exam_recording_id := 4, exam_id := 1, user_id := 2,
    time_started := some 10, time_ended := some 42, video_link := none }

/-- Sample exam that has not started yet at `now = 50`
(`start_date = 100`). -/
def examC7 : Exam :=
  { exam_id := 3, exam_name := "Old name", subject_id := 5,
    login_code := "QQ11WW22EE33", start_date := 100, end_date := 200,
    duration := { hour := 2, minute := 30, second := 0 },
    document_link := none }

/-- Sample update payload renaming `examC7`. -/
def updC7 : ExamUpdateData :=
  { exam_id := some 3, exam_name := some "New name", subject_id := none,
    start_date := none, end_date := none, duration := none,
    document_link := none }

/-- Sample creation payload with `start_date` after `end_date`. -/
def examDataC8 : ExamData :=
  { exam_name := "Backwards", subject_id := 9,
    login_code := "AA00BB11CC22", start_date := 300, end_date := 200,
    duration := { hour := 1, minute := 0, second := 0 },
    document_link := none }

/-! ## Theorems -/

/-- Helper for the pagination theorem: lengths and peek-ahead flag of a
`take (s+1)` slice of `drop off`, with the extra row dropped when it was
returned. -/
theorem take_page_spec {α : Type} (l : List α) (off s : Nat) :
    (if ((l.drop off).take (s + 1)).length = s + 1
       then ((l.drop off).take (s + 1)).dropLast
       else (l.drop off).take (s + 1)).length = min s (l.length - off) ∧
    ((((l.drop off).take (s + 1)).length == s + 1) = true ↔
        l.length > off + s) := by
  have hlen : ((l.drop off).take (s + 1)).length
      = min (s + 1) (l.length - off) := by
    simp [List.length_take, List.length_drop]
  constructor
  · split
    · rename_i h
      rw [hlen] at h
      rw [List.length_dropLast, hlen]
      omega
    · rename_i h
      rw [hlen] at h
      rw [hlen]
      omega
  · rw [beq_iff_eq, hlen]
    omega

/-- C3: for every page_number `p ≥ 1`, every effective page size `s`,
and every filtered-and-ordered result set `results` of size `n`, the
engine with `offset = (p-1)*s` returns exactly `min s (n - offset)` rows
(truncated Nat subtraction is `max 0` of the difference), sets
`next_page_exists = true` iff `n > offset + s`, and never returns more
than `s` rows. -/
theorem filter_results_paginate_spec {α : Type} (results : List α)
    (p s : Nat) (hp : 1 ≤ p) :
    (filter_results_paginate results p s).1.length
        = min s (results.length - (p - 1) * s) ∧
    ((filter_results_paginate results p s).2 = true ↔
        results.length > (p - 1) * s + s) ∧
    (filter_results_paginate results p s).1.length ≤ s := by
  obtain ⟨h1, h2⟩ := take_page_spec results ((p - 1) * s) s
  have e : filter_results_paginate results p s
      = (if ((results.drop ((p - 1) * s)).take (s + 1)).length = s + 1
           then ((results.drop ((p - 1) * s)).take (s + 1)).dropLast
           else (results.drop ((p - 1) * s)).take (s + 1),
         ((results.drop ((p - 1) * s)).take (s + 1)).length == s + 1) := by
    simp only [filter_results_paginate, beq_iff_eq]
  rw [e]
  refine ⟨h1, by simpa using h2, ?_⟩
  rw [h1]
  exact Nat.min_le_left _ _

/-- Witness for C3 at a concrete input: six rows, page 2, page size 2. -/
theorem filter_results_paginate_spec_witness :
    1 ≤ 2 ∧
    ((filter_results_paginate (List.range 6) 2 2).1.length
        = min 2 ((List.range 6).length - (2 - 1) * 2) ∧
     ((filter_results_paginate (List.range 6) 2 2).2 = true ↔
        (List.range 6).length > (2 - 1) * 2 + 2) ∧
     (filter_results_paginate (List.range 6) 2 2).1.length ≤ 2) :=
  ⟨by decide, filter_results_paginate_spec (List.range 6) 2 2 (by decide)⟩

/-- C6 counterexample: a supplied `results_length = 500` is kept as is
(the effective page size is not in `[1,100]`), and a supplied
`results_length = 0` becomes 1, not the default 25 — refuting the claim
that out-of-range values are replaced by the defaults. -/
theorem get_request_args_page_counterexample :
    get_request_args_page (some 1) (some 500) = (1, 500) ∧
    ¬((500 : Int) ≤ 100) ∧
    get_request_args_page (some 1) (some 0) = (1, 1) ∧
    (1 : Int) ≠ 25 := by
  refine ⟨rfl, by decide, rfl, by decide⟩

/-- C6 amended: the effective parameters are
`page_number = max 1 (supplied or 1)` and
`results_length = max 1 (supplied or 25)` — values below 1 are raised
to 1 (not replaced by the defaults), missing or unparseable values take
the defaults 1 and 25, and there is no upper bound of 100; both
effective values are always at least 1, and no request is rejected. -/
theorem get_request_args_page_clamping (pn rl : Option Int) :
    get_request_args_page pn rl
        = (max 1 (pn.getD 1), max 1 (rl.getD 25)) ∧
    1 ≤ (get_request_args_page pn rl).1 ∧
    1 ≤ (get_request_args_page pn rl).2 := by
  rcases pn with _ | a <;> rcases rl with _ | b <;>
    simp only [get_request_args_page, Option.getD_some, Option.getD_none,
      Prod.mk.injEq] <;>
    refine ⟨⟨?_, ?_⟩, ?_, ?_⟩ <;> split <;> omega

/-- C5 counterexample: at `now = exam.start_date` the claim's window
condition `start_date ≤ now < end_date` holds, yet the code rejects the
creation (`exam.start_date >= datetime.utcnow()` at api.py line 288),
refuting the claimed success condition. -/
theorem create_exam_recording_counterexample :
    (examC5.start_date ≤ 100 ∧ 100 < examC5.end_date) ∧
    create_exam_recording (some examC5) 1 2 1 100 =
      .err401 "The exam has not started. Contact an administrator to override." :=
  ⟨by decide, rfl⟩

/-- C5 amended: for a registered user with no prior recording for the
same `(exam_id, user_id)`, creation succeeds iff the referenced exam
exists and `exam.start_date < now < exam.end_date` — both bounds
strict, so creation exactly at `start_date` (or at `end_date`) is
rejected with a time-window violation — and on success the new
recording has `time_started = now` and `time_ended = null`. -/
theorem create_exam_recording_spec (exam? : Option Exam)
    (d_exam_id d_user_id newId now : Nat) :
    ((∃ r, create_exam_recording exam? d_exam_id d_user_id newId now
        = .created r) ↔
      (∃ e, exam? = some e ∧ e.start_date < now ∧ now < e.end_date)) ∧
    (∀ r, create_exam_recording exam? d_exam_id d_user_id newId now
        = .created r →
      r.time_started = some now ∧ r.time_ended = none) := by
  rcases exam? with _ | e
  · refine ⟨⟨?_, ?_⟩, ?_⟩
    · rintro ⟨r, hr⟩
      simp [create_exam_recording] at hr
    · rintro ⟨e, he, _⟩
      cases he
    · intro r hr
      simp [create_exam_recording] at hr
  · simp only [create_exam_recording, Option.some.injEq]
    split_ifs with h1 h2
    · refine ⟨⟨?_, ?_⟩, ?_⟩
      · rintro ⟨r, hr⟩
        cases hr
      · rintro ⟨e', rfl, _, h⟩
        omega
      · intro r hr
        cases hr
    · refine ⟨⟨?_, ?_⟩, ?_⟩
      · rintro ⟨r, hr⟩
        cases hr
      · rintro ⟨e', rfl, h, _⟩
        omega
      · intro r hr
        cases hr
    · refine ⟨⟨?_, ?_⟩, ?_⟩
      · intro _
        exact ⟨e, rfl, by omega, by omega⟩
      · intro _
        exact ⟨_, rfl⟩
      · intro r hr
        cases hr
        exact ⟨rfl, rfl⟩

/-- C1 counterexample: with the `in_progress=1` filter, a recording
lazily expired during the request is persisted but omitted from the
response (`items = []`), and the persisted `time_ended` is
`time_started` plus only the hour and minute parts of the duration
(3600), not the full duration including seconds (3630) — both refuting
the claim that every such recording is reported with
`time_ended = time_started + exam.duration`. -/
theorem get_exam_recording_counterexample :
    get_exam_recording 7200 (some true) [rowC1] =
      .ok ([{ exam_recording_id := 5, exam_id := 1, user_id := 2,
              time_started := some 0, time_ended := some 3600,
              video_link := none }], []) ∧
    latestFinish 0 rowC1.exam.duration ≠
      0 + (rowC1.exam.duration.hour * 3600 + rowC1.exam.duration.minute * 60
            + rowC1.exam.duration.second) :=
  ⟨rfl, by decide⟩

/-- C1 amended: for every row read by the exam-recording listing
operation whose recording has `time_ended` null, `time_started` set,
and `now ≥ time_started + duration.hour hours + duration.minute minutes`
(the seconds component of the exam duration is ignored): the operation
persists `time_ended = time_started + hours + minutes` of the exam
duration (the latest possible finish time as the code computes it), and
reports the recording as ended with that computed `time_ended` in the
same listing response unless the request carries the `in_progress=1`
filter, in which case the expired recording is persisted but omitted
from the response. -/
theorem get_exam_recording_lazy_expiry (now : Nat)
    (in_progress : Option Bool) (rows : List RecordingRow)
    (states : List ExamRecording) (items : List ListingItem)
    (row : RecordingRow) (ts : Nat)
    (hmem : row ∈ rows)
    (hok : get_exam_recording now in_progress rows = .ok (states, items))
    (hne : row.recording.time_ended = none)
    (hts : row.recording.time_started = some ts)
    (hexp : latestFinish ts row.exam.duration ≤ now) :
    ({ row.recording with
        time_ended := some (latestFinish ts row.exam.duration) } ∈ states) ∧
    (in_progress ≠ some true →
      mkItem row { row.recording with
        time_ended := some (latestFinish ts row.exam.duration) } ∈ items) := by
  induction rows generalizing states items with
  | nil => cases hmem
  | cons head tail ih =>
    rw [get_exam_recording] at hok
    rcases hproc : processRecordingRow now in_progress head with e | ⟨er, item?⟩ <;>
      rw [hproc] at hok
    · cases hok
    · rcases hrest : get_exam_recording now in_progress tail with e | ⟨ers, its⟩ <;>
        rw [hrest] at hok
      · cases hok
      · simp only [Except.ok.injEq, Prod.mk.injEq] at hok
        obtain ⟨hs, hi⟩ := hok
        rcases List.mem_cons.mp hmem with rfl | hmem'
        · simp only [processRecordingRow, hne, hts, if_pos hexp] at hproc
          by_cases hip : in_progress = some true
          · rw [if_pos hip] at hproc
            simp only [Except.ok.injEq, Prod.mk.injEq] at hproc
            obtain ⟨her, hitem⟩ := hproc
            subst her
            constructor
            · rw [← hs]
              refine List.mem_cons.mpr (Or.inl ?_)
              rw [← hts]
            · intro hnip
              exact absurd hip hnip
          · rw [if_neg hip] at hproc
            simp only [Except.ok.injEq, Prod.mk.injEq] at hproc
            obtain ⟨her, hitem⟩ := hproc
            subst her
            constructor
            · rw [← hs]
              refine List.mem_cons.mpr (Or.inl ?_)
              rw [← hts]
            · intro _
              rw [← hi, ← hitem]
              refine List.mem_cons.mpr (Or.inl ?_)
              rw [← hts]
        · obtain ⟨ihs, ihi⟩ := ih _ _ hmem' hrest
          constructor
          · rw [← hs]
            exact List.mem_cons_of_mem _ ihs
          · intro hnip
            rw [← hi]
            rcases item? with _ | item
            · exact ihi hnip
            · exact List.mem_cons_of_mem _ (ihi hnip)

/-- Witness for C1 at a concrete input: one overrun recording, no
`in_progress` filter. -/
theorem get_exam_recording_lazy_expiry_witness :
    rowC1 ∈ [rowC1] ∧
    get_exam_recording 7200 none [rowC1] =
      .ok ([{ rowC1.recording with time_ended := some 3600 }],
           [mkItem rowC1 { rowC1.recording with time_ended := some 3600 }]) ∧
    rowC1.recording.time_ended = none ∧
    rowC1.recording.time_started = some 0 ∧
    latestFinish 0 rowC1.exam.duration ≤ 7200 ∧
    (({ rowC1.recording with
         time_ended := some (latestFinish 0 rowC1.exam.duration) } ∈
       [{ rowC1.recording with time_ended := some 3600 }]) ∧
     ((none : Option Bool) ≠ some true →
       mkItem rowC1 { rowC1.recording with
           time_ended := some (latestFinish 0 rowC1.exam.duration) } ∈
         [mkItem rowC1 { rowC1.recording with time_ended := some 3600 }])) :=
  ⟨List.mem_cons_self _ _, rfl, rfl, rfl, by decide,
   get_exam_recording_lazy_expiry 7200 none [rowC1]
     [{ rowC1.recording with time_ended := some 3600 }]
     [mkItem rowC1 { rowC1.recording with time_ended := some 3600 }]
     rowC1 0 (List.mem_cons_self _ _) rfl rfl rfl (by decide)⟩

/-- C9: with the `in_progress=1` filter, every item of the listing
response comes from a row the request did not lazily expire — it is the
unmodified projection of a row for which the expiry condition was false
— so no recording whose `time_ended` was materialized during the
request appears in the response; yet every row the request did expire
has its `time_ended` persisted in the committed states. -/
theorem get_exam_recording_in_progress_spec (now : Nat)
    (rows : List RecordingRow) (states : List ExamRecording)
    (items : List ListingItem)
    (hok : get_exam_recording now (some true) rows = .ok (states, items)) :
    (∀ item ∈ items, ∃ row ∈ rows,
        wouldExpire now row = false ∧ item = mkItem row row.recording) ∧
    (∀ row ∈ rows, wouldExpire now row = true →
        ∃ er ∈ states,
          er.exam_recording_id = row.recording.exam_recording_id ∧
          er.time_ended.isSome = true) := by
  induction rows generalizing states items with
  | nil =>
    rw [get_exam_recording] at hok
    simp only [Except.ok.injEq, Prod.mk.injEq] at hok
    obtain ⟨hs, hi⟩ := hok
    subst hs
    subst hi
    exact ⟨by simp, by simp⟩
  | cons head tail ih =>
    rw [get_exam_recording] at hok
    rcases hproc : processRecordingRow now (some true) head with e | ⟨er, item?⟩ <;>
      rw [hproc] at hok
    · cases hok
    · rcases hrest : get_exam_recording now (some true) tail with e | ⟨ers, its⟩ <;>
        rw [hrest] at hok
      · cases hok
      · simp only [Except.ok.injEq, Prod.mk.injEq] at hok
        obtain ⟨hs, hi⟩ := hok
        obtain ⟨ih1, ih2⟩ := ih ers its hrest
        rcases hte : head.recording.time_ended with _ | v
        · rcases hts : head.recording.time_started with _ | ts
          · simp [processRecordingRow, hte, hts] at hproc
          · by_cases hlf : latestFinish ts head.exam.duration ≤ now
            · simp only [processRecordingRow, hte, hts, if_pos hlf, if_pos rfl,
                Except.ok.injEq, Prod.mk.injEq] at hproc
              obtain ⟨rfl, rfl⟩ := hproc
              constructor
              · intro item hitem'
                rw [← hi] at hitem'
                obtain ⟨r, hr, hwe, heq⟩ := ih1 item hitem'
                exact ⟨r, List.mem_cons_of_mem _ hr, hwe, heq⟩
              · intro r hr hwe
                rcases List.mem_cons.mp hr with rfl | hr'
                · exact ⟨{ exam_recording_id := r.recording.exam_recording_id,
                           exam_id := r.recording.exam_id,
                           user_id := r.recording.user_id,
                           time_started := some ts,
                           time_ended := some (latestFinish ts r.exam.duration),
                           video_link := r.recording.video_link },
                         by rw [← hs]; exact List.mem_cons_self _ _, rfl, rfl⟩
                · obtain ⟨er', her', hid, hsome⟩ := ih2 r hr' hwe
                  exact ⟨er', by rw [← hs]; exact List.mem_cons_of_mem _ her',
                         hid, hsome⟩
            · simp only [processRecordingRow, hte, hts, if_neg hlf,
                Except.ok.injEq, Prod.mk.injEq] at hproc
              obtain ⟨rfl, rfl⟩ := hproc
              constructor
              · intro item hitem'
                rw [← hi] at hitem'
                rcases List.mem_cons.mp hitem' with rfl | hit'
                · exact ⟨head, List.mem_cons_self _ _,
                    by simp [wouldExpire, hte, hts, hlf], rfl⟩
                · obtain ⟨r, hr, hwe, heq⟩ := ih1 item hit'
                  exact ⟨r, List.mem_cons_of_mem _ hr, hwe, heq⟩
              · intro r hr hwe
                rcases List.mem_cons.mp hr with rfl | hr'
                · rw [wouldExpire, hte, hts] at hwe
                  simp [hlf] at hwe
                · obtain ⟨er', her', hid, hsome⟩ := ih2 r hr' hwe
                  exact ⟨er', by rw [← hs]; exact List.mem_cons_of_mem _ her',
                         hid, hsome⟩
        · simp only [processRecordingRow, hte, Except.ok.injEq,
            Prod.mk.injEq] at hproc
          obtain ⟨rfl, rfl⟩ := hproc
          constructor
          · intro item hitem'
            rw [← hi] at hitem'
            rcases List.mem_cons.mp hitem' with rfl | hit'
            · exact ⟨head, List.mem_cons_self _ _,
                by simp [wouldExpire, hte], rfl⟩
            · obtain ⟨r, hr, hwe, heq⟩ := ih1 item hit'
              exact ⟨r, List.mem_cons_of_mem _ hr, hwe, heq⟩
          · intro r hr hwe
            rcases List.mem_cons.mp hr with rfl | hr'
            · rw [wouldExpire, hte] at hwe
              simp at hwe
            · obtain ⟨er', her', hid, hsome⟩ := ih2 r hr' hwe
              exact ⟨er', by rw [← hs]; exact List.mem_cons_of_mem _ her',
                     hid, hsome⟩

/-- Witness for C9 at a concrete input: one overrun recording under the
`in_progress=1` filter is persisted as ended but omitted from the
response. -/
theorem get_exam_recording_in_progress_witness :
    get_exam_recording 7200 (some true) [rowC1] =
      .ok ([{ rowC1.recording with time_ended := some 3600 }], []) ∧
    ((∀ item ∈ ([] : List ListingItem), ∃ row ∈ [rowC1],
        wouldExpire 7200 row = false ∧ item = mkItem row row.recording) ∧
     (∀ row ∈ [rowC1], wouldExpire 7200 row = true →
        ∃ er ∈ [{ rowC1.recording with time_ended := some 3600 }],
          er.exam_recording_id = row.recording.exam_recording_id ∧
          er.time_ended.isSome = true)) :=
  ⟨rfl, get_exam_recording_in_progress_spec 7200 [rowC1] _ _ rfl⟩

/-- C2: for a warning-creation request on an existing recording with
prior warning count `prior` for that `exam_recording_id`: every
successful response reports `warning_count = prior + 1`; if
`prior = MAX_WARNING_COUNT - 1` (the new warning is the third,
`MAX_WARNING_COUNT = 3`) and the recording's `time_ended` is null, the
operation succeeds and persists `time_ended = now` on it; and if
`prior` is any smaller number the stored recordings are untouched. -/
theorem create_exam_warning_spec (st : Store) (d : WarningData)
    (now : Nat) (found : ExamRecording)
    (hfind : st.recordings.find?
        (fun r => r.exam_recording_id == d.exam_recording_id)
      = some found) :
    (∀ st' cnt, create_exam_warning st d now = .ok (st', cnt) →
        cnt = (st.warnings.filter
          (fun w => w.exam_recording_id == d.exam_recording_id)).length
            + 1) ∧
    ((st.warnings.filter
        (fun w => w.exam_recording_id == d.exam_recording_id)).length
          = MAX_WARNING_COUNT - 1 → found.time_ended = none →
      ∃ st' cnt, create_exam_warning st d now = .ok (st', cnt) ∧
        ∀ r ∈ st'.recordings,
          r.exam_recording_id = d.exam_recording_id →
          r.time_ended = some now) ∧
    ((st.warnings.filter
        (fun w => w.exam_recording_id == d.exam_recording_id)).length
          < MAX_WARNING_COUNT - 1 →
      ∀ st' cnt, create_exam_warning st d now = .ok (st', cnt) →
        st'.recordings = st.recordings) := by
  refine ⟨?_, ?_, ?_⟩
  · intro st' cnt hok
    simp only [create_exam_warning] at hok
    split_ifs at hok with hc
    · rw [hfind] at hok
      dsimp only at hok
      split_ifs at hok with hte
      · simp only [Except.ok.injEq, Prod.mk.injEq] at hok
        omega
      · simp only [Except.ok.injEq, Prod.mk.injEq] at hok
        omega
    · simp only [Except.ok.injEq, Prod.mk.injEq] at hok
      omega
  · intro hc hte
    refine ⟨{ recordings := st.recordings.map fun r =>
                if r.exam_recording_id == d.exam_recording_id then
                  { r with time_ended := some now }
                else r,
              warnings := st.warnings ++
                [{ exam_recording_id := d.exam_recording_id,
                   warning_time := d.warning_time,
                   description := d.description }] },
            (st.warnings.filter
              (fun w => w.exam_recording_id == d.exam_recording_id)).length
                + 1, ?_, ?_⟩
    · simp only [create_exam_warning]
      rw [if_pos hc, hfind]
      dsimp only
      rw [if_pos hte]
    · intro r hr hid
      obtain ⟨a, ha, rfl⟩ := List.mem_map.mp hr
      by_cases hmatch : (a.exam_recording_id == d.exam_recording_id) = true
      · simp only [hmatch, if_true]
      · rw [if_neg (by simp [hmatch])] at hid ⊢
        exact absurd hid (by simpa using hmatch)
  · intro hlt st' cnt hok
    simp only [create_exam_warning] at hok
    rw [if_neg (by omega)] at hok
    simp only [Except.ok.injEq, Prod.mk.injEq] at hok
    rw [← hok.1]

/-- Witness for C2 at a concrete input: a third warning on a recording
with two prior warnings and `time_ended` null. -/
theorem create_exam_warning_spec_witness :
    storeC2.recordings.find?
        (fun r => r.exam_recording_id == warnC2.exam_recording_id)
      = some recC2 ∧
    ((∀ st' cnt, create_exam_warning storeC2 warnC2 90 = .ok (st', cnt) →
        cnt = (storeC2.warnings.filter
          (fun w => w.exam_recording_id == warnC2.exam_recording_id)).length
            + 1) ∧
     ((storeC2.warnings.filter
        (fun w => w.exam_recording_id == warnC2.exam_recording_id)).length
          = MAX_WARNING_COUNT - 1 → recC2.time_ended = none →
      ∃ st' cnt, create_exam_warning storeC2 warnC2 90 = .ok (st', cnt) ∧
        ∀ r ∈ st'.recordings,
          r.exam_recording_id = warnC2.exam_recording_id →
          r.time_ended = some 90) ∧
     ((storeC2.warnings.filter
        (fun w => w.exam_recording_id == warnC2.exam_recording_id)).length
          < MAX_WARNING_COUNT - 1 →
      ∀ st' cnt, create_exam_warning storeC2 warnC2 90 = .ok (st', cnt) →
        st'.recordings = storeC2.recordings)) :=
  ⟨rfl, create_exam_warning_spec storeC2 warnC2 90 recC2 rfl⟩

/-- C4: once a recording's `time_ended` is non-null it is never changed
by any subsequent operation: a manual end is refused without mutation, a
video-link update leaves `time_ended` intact, lazy expiry on read leaves
the recording unchanged, and warning creation — whether the targeted
recording is this one (first id match) or a different one — never
rewrites a non-null `time_ended`. -/
theorem time_ended_write_once (rec : ExamRecording) (t : Nat)
    (h : rec.time_ended = some t) :
    (∀ action link now rec',
        update_exam_recording rec action link now = .ok rec' →
        rec'.time_ended = some t) ∧
    (∀ now inp row out, row.recording = rec →
        processRecordingRow now inp row = .ok out →
        out.1.time_ended = some t) ∧
    (∀ st d now st' cnt,
        st.recordings.find?
          (fun r => r.exam_recording_id == d.exam_recording_id) = some rec →
        create_exam_warning st d now = .ok (st', cnt) →
        st'.recordings = st.recordings) ∧
    (∀ st d now st' cnt, rec ∈ st.recordings →
        rec.exam_recording_id ≠ d.exam_recording_id →
        create_exam_warning st d now = .ok (st', cnt) →
        rec ∈ st'.recordings) := by
  refine ⟨?_, ?_, ?_, ?_⟩
  · intro action link now rec' hok
    unfold update_exam_recording at hok
    split_ifs at hok with h1 h2
    · rw [h] at hok
      cases hok
    · rcases link with _ | l
      · cases hok
      · dsimp only at hok
        split_ifs at hok with h3
        cases hok
        exact h
  · intro now inp row out hrow hok
    simp only [processRecordingRow] at hok
    rw [hrow, h] at hok
    injection hok with h4
    rw [← h4]
    exact h
  · intro st d now st' cnt hfind hok
    simp only [create_exam_warning] at hok
    split_ifs at hok with hc
    · rw [hfind] at hok
      dsimp only at hok
      rw [if_neg (by rw [h]; exact fun hx => Option.noConfusion hx)] at hok
      simp only [Except.ok.injEq, Prod.mk.injEq] at hok
      rw [← hok.1]
    · simp only [Except.ok.injEq, Prod.mk.injEq] at hok
      rw [← hok.1]
  · intro st d now st' cnt hmem hne hok
    simp only [create_exam_warning] at hok
    split_ifs at hok with hc
    · rcases hf : st.recordings.find?
          (fun r => r.exam_recording_id == d.exam_recording_id) with _ | found
      · rw [hf] at hok
        cases hok
      · rw [hf] at hok
        dsimp only at hok
        split_ifs at hok with hte
        · simp only [Except.ok.injEq, Prod.mk.injEq] at hok
          rw [← hok.1]
          exact List.mem_map.mpr ⟨rec, hmem, by simp [hne]⟩
        · simp only [Except.ok.injEq, Prod.mk.injEq] at hok
          rw [← hok.1]
          exact hmem
    · simp only [Except.ok.injEq, Prod.mk.injEq] at hok
      rw [← hok.1]
      exact hmem

/-- Witness for C4 at a concrete input: a recording already ended at
time 42. -/
theorem time_ended_write_once_witness :
    recC4.time_ended = some 42 ∧
    ((∀ action link now rec',
        update_exam_recording recC4 action link now = .ok rec' →
        rec'.time_ended = some 42) ∧
     (∀ now inp row out, row.recording = recC4 →
        processRecordingRow now inp row = .ok out →
        out.1.time_ended = some 42) ∧
     (∀ st d now st' cnt,
        st.recordings.find?
          (fun r => r.exam_recording_id == d.exam_recording_id) = some recC4 →
        create_exam_warning st d now = .ok (st', cnt) →
        st'.recordings = st.recordings) ∧
     (∀ st d now st' cnt, recC4 ∈ st.recordings →
        recC4.exam_recording_id ≠ d.exam_recording_id →
        create_exam_warning st d now = .ok (st', cnt) →
        recC4 ∈ st'.recordings)) :=
  ⟨rfl, time_ended_write_once recC4 42 rfl⟩

/-- C7 (code defect): a valid examiner update of a not-yet-started exam
returns the 200 response carrying the updated fields, yet the stored
exams are unchanged — `db.session.commit()` at api.py line 223 is
commented out, so nothing is persisted, contradicting both the claim
and the endpoint docstring; and an update of an already-started exam
fails and also leaves the store unchanged. -/
theorem update_exam_not_persisted :
    update_exam [examC7] updC7 50 =
      ([examC7], .ok { examC7 with exam_name := "New name" }) ∧
    examC7.exam_name ≠ "New name" ∧
    update_exam [examC7] updC7 150 =
      ([examC7], .error "Cannot update an Exam that has already started.") :=
  ⟨rfl, by decide, rfl⟩

/-- C8 counterexample: creating an exam whose parsed `start_date` (300)
is after its parsed `end_date` (200) fails with the generic 500 handler
— `raise Exception` at api.py line 123 caught by the catch-all at line
134 — not with a 400 validation error as claimed, though no row is
persisted. -/
theorem create_exam_counterexample :
    examDataC8.start_date > examDataC8.end_date ∧
    create_exam [] examDataC8 1 = ([], 500) ∧
    (500 : Nat) ≠ 400 :=
  ⟨by decide, rfl, by decide⟩

/-- C8 amended: for every examiner-authorized exam-creation request
whose parsed `start_date` is after its parsed `end_date`, the operation
fails — surfaced as a 500 through the generic exception handler, not as
a 400 validation error — and no exam row is persisted: the store is
returned unchanged. -/
theorem create_exam_invalid_dates (exams : List Exam) (d : ExamData)
    (newId : Nat) (hd : d.start_date > d.end_date) :
    create_exam exams d newId = (exams, 500) := by
  simp only [create_exam]
  rw [if_pos hd]

/-- Witness for C8 at a concrete input. -/
theorem create_exam_invalid_dates_witness :
    examDataC8.start_date > examDataC8.end_date ∧
    create_exam [] examDataC8 7 = ([], 500) :=
  ⟨by decide, create_exam_invalid_dates [] examDataC8 7 (by decide)⟩

/-- C10: when the Authorization token cannot be decoded,
`decode_auth_token` returns the fixed string
"Invalid token. Please log in again." in place of a user id; every
role/ownership predicate — `is_examiner`, `is_user`, `is_self` —
evaluates to false on that string value (an integer column never equals
a string), and the guarded endpoint answers 403 access-denied, not 401. -/
theorem invalid_token_denied (s : String) (users : List User)
    (roles : List UserRole) (q : Option Nat) (exams : List Exam)
    (d : ExamData) (newId : Nat) :
    decode_auth_token none = .errMsg "Invalid token. Please log in again." ∧
    is_examiner roles (.errMsg s) = false ∧
    is_user users (.errMsg s) = false ∧
    is_self (.errMsg s) q = false ∧
    create_exam_route roles (.errMsg s) exams d newId = (exams, 403) := by
  have hfind : ∀ (rs : List UserRole),
      rs.find? (fun r => authIdMatchesUser (.errMsg s) r.user_id) = none := by
    intro rs
    rw [List.find?_eq_none]
    intro x hx
    simp [authIdMatchesUser]
  have hex : is_examiner roles (.errMsg s) = false := by
    rw [is_examiner, hfind]
  have hfindu : users.find?
      (fun u => authIdMatchesUser (.errMsg s) u.user_id) = none := by
    rw [List.find?_eq_none]
    intro x hx
    simp [authIdMatchesUser]
  refine ⟨rfl, hex, ?_, ?_, ?_⟩
  · rw [is_user, hfindu]
    rfl
  · cases q <;> rfl
  · simp [create_exam_route, hex]

end SS2B
